import Mathlib

/-!
Verification development for the wrtkit UCI configuration engine: a shallow
embedding of the command model, the diff engine, the removal optimizer, the
apply pipeline, service-reload selection, show-format parsing, whitelist
pattern matching, sensitive-value masking, and the fleet stage phase.

Representation notes:
* UCI paths are dotted strings in the Python source and are split on "." at
  every use site; the embedding represents a path by its segment list
  (`List String`).  Segment lists correspond bijectively to dotted strings
  as long as individual segments contain no dot, which every use in the
  source assumes.
* Python sets that are used only through membership tests are represented by
  lists queried with membership.
-/

namespace Wrtkit

/-- UCI mutation actions (the `action` strings of `UCICommand` in `base.py`). -/
inductive UCIAction
| set
| add_list
| del_list
| delete
deriving DecidableEq

/-- One UCI mutation (`UCICommand` in `base.py`).  The dotted `path` string is
represented by its segment list; `delete` carries no value.  A `None` value
renders as the string "None", as Python string interpolation does. -/
structure UCICommand where
  action : UCIAction
  path : List String
  value : Option String
deriving DecidableEq

/-- Dotted rendering of a path (the inverse of splitting on "."). -/
def pathStr (p : List String) : String :=
  String.intercalate "." p

/-- `UCICommand.to_string` from `base.py`. -/
def UCICommand.to_string (c : UCICommand) : String :=
  match c.action with
  | .set => "uci set " ++ pathStr c.path ++ "=\x27" ++ (c.value.getD "None") ++ "\x27"
  | .add_list => "uci add_list " ++ pathStr c.path ++ "=\x27" ++ (c.value.getD "None") ++ "\x27"
  | .del_list => "uci del_list " ++ pathStr c.path ++ "=\x27" ++ (c.value.getD "None") ++ "\x27"
  | .delete => "uci delete " ++ pathStr c.path

/-- `UCICommand.to_string_with_value` from `base.py`: render with a custom
display value (used for masking); the stored value is not consulted except
for `delete`, which renders without any value. -/
def UCICommand.to_string_with_value (c : UCICommand) (display_value : String) : String :=
  match c.action with
  | .set => "uci set " ++ pathStr c.path ++ "=\x27" ++ display_value ++ "\x27"
  | .add_list => "uci add_list " ++ pathStr c.path ++ "=\x27" ++ display_value ++ "\x27"
  | .del_list => "uci del_list " ++ pathStr c.path ++ "=\x27" ++ display_value ++ "\x27"
  | .delete => "uci delete " ++ pathStr c.path

/-- Option names that contain sensitive data (`SENSITIVE_FIELDS` in
`config.py`). -/
def SENSITIVE_FIELDS : List String :=
  ["key", "password", "wpakey", "sae_password", "psk", "secret",
   "auth_secret", "priv_passwd", "auth_passwd"]

/-- `mask_sensitive_value` from `config.py`: `None` renders as "None"; a
string of length at most `visible_chars` renders as all asterisks; a longer
string keeps its first `visible_chars` characters and pads with asterisks to
the original length. -/
def mask_sensitive_value (value : Option String) (visible_chars : Nat) : String :=
  match value with
  | Option.none => "None"
  | some s =>
    if s.length ≤ visible_chars then String.mk (List.replicate s.length '*')
    else String.mk (s.toList.take visible_chars ++ List.replicate (s.length - visible_chars) '*')

/-- ASCII lower-casing of one character (the sensitive field names are all
ASCII, where Python `str.lower()` coincides with this). -/
def lowerChar (c : Char) : Char :=
  if decide ('A' ≤ c ∧ c ≤ 'Z') then Char.ofNat (c.toNat + 32) else c

/-- ASCII `str.lower()`. -/
def pyLower (s : String) : String :=
  String.mk (s.toList.map lowerChar)

/-- `get_display_value` from `config.py`: mask the value when the last path
segment, lower-cased, is a sensitive field name. -/
def get_display_value (path : List String) (value : Option String) : String :=
  let field_name := path.getLastD ""
  if pyLower field_name ∈ SENSITIVE_FIELDS then mask_sensitive_value value 3
  else value.getD "None"

/-- The diff record (`ConfigDiff` in `config.py`).  The section-presence sets
`_local_sections` / `_remote_sections` are kept as lists used only through
membership. -/
structure ConfigDiff where
  to_add : List UCICommand
  to_remove : List UCICommand
  to_modify : List (UCICommand × UCICommand)
  remote_only : List UCICommand
  common : List UCICommand
  local_sections : List (String × String)
  remote_sections : List (String × String)
deriving DecidableEq

/-- The `(path, value)` pair set built from a command list in
`UCIConfig.diff` (`local_set` / `remote_set`). -/
def pairsOf (cmds : List UCICommand) : List (List String × Option String) :=
  cmds.map (fun c => (c.path, c.value))

/-- Section-presence pairs collected from a command list (the loops building
`_local_sections` / `_remote_sections` in `UCIConfig.diff`). -/
def sectionsOf (cmds : List UCICommand) : List (String × String) :=
  cmds.filterMap (fun c =>
    match c.path with
    | pkg :: sec :: _ => some (pkg, sec)
    | _ => Option.none)

/-- Result of classifying one local command (the first loop of
`UCIConfig.diff`). -/
inductive LocalRes
| toAdd
| toCommon
| toModify (remoteCmd : UCICommand)
deriving DecidableEq

/-- The first loop of `UCIConfig.diff`, for one local command: a pair present
on the remote is common; otherwise an `add_list` is an addition, and a `set`
whose path exists remotely as a `set` pairs with the first such remote
command as a modification, else it is an addition. -/
def localClass (remoteCmds : List UCICommand) (c : UCICommand) : LocalRes :=
  if (c.path, c.value) ∈ pairsOf remoteCmds then .toCommon
  else if c.action = .add_list then .toAdd
  else
    match remoteCmds.find? (fun r => decide (r.path = c.path ∧ r.action = .set)) with
    | some r => .toModify r
    | Option.none => .toAdd

/-- Result of classifying one remote command (the second loop of
`UCIConfig.diff`). -/
inductive RemoteRes
| toRemove
| toRemoteOnly
| skip
deriving DecidableEq

/-- The per-package removal intent of `UCIConfig.diff`: with an explicit
package list only its members are removed, otherwise everything is removed
exactly when `show_remote_only` is false. -/
def shouldRemove (show_remote_only : Bool) (remove_packages : Option (List String))
    (pkg : String) : Bool :=
  match remove_packages with
  | some l => decide (pkg ∈ l)
  | Option.none => !show_remote_only

/-- The second loop of `UCIConfig.diff`, for one remote command: a pair
present locally is skipped; an `add_list` pair missing locally goes to
removal or remote-only by the removal intent; a `set` goes there only when
its path does not exist locally at all. -/
def remoteClass (localCmds : List UCICommand) (show_remote_only : Bool)
    (remove_packages : Option (List String)) (c : UCICommand) : RemoteRes :=
  if (c.path, c.value) ∈ pairsOf localCmds then .skip
  else
    let sr := shouldRemove show_remote_only remove_packages (c.path.headD "")
    if c.action = .add_list then (if sr then .toRemove else .toRemoteOnly)
    else if c.path ∈ localCmds.map (fun l => l.path) then .skip
    else if sr then .toRemove else .toRemoteOnly

/-- `UCIConfig.diff` from `config.py`, over the already-emitted local command
list and the already-parsed remote command list.  Each output sequence keeps
the source's append order: local commands are scanned in order for
`to_add` / `to_modify` / `common`, remote commands for `to_remove` /
`remote_only`. -/
def diff (localCmds remoteCmds : List UCICommand) (show_remote_only : Bool)
    (remove_packages : Option (List String)) : ConfigDiff where
  to_add := localCmds.filterMap (fun c =>
    match localClass remoteCmds c with
    | .toAdd => some c
    | _ => Option.none)
  to_remove := remoteCmds.filterMap (fun c =>
    match remoteClass localCmds show_remote_only remove_packages c with
    | .toRemove => some c
    | _ => Option.none)
  to_modify := localCmds.filterMap (fun c =>
    match localClass remoteCmds c with
    | .toModify r => some (r, c)
    | _ => Option.none)
  remote_only := remoteCmds.filterMap (fun c =>
    match remoteClass localCmds show_remote_only remove_packages c with
    | .toRemoteOnly => some c
    | _ => Option.none)
  common := localCmds.filterMap (fun c =>
    match localClass remoteCmds c with
    | .toCommon => some c
    | _ => Option.none)
  local_sections := sectionsOf localCmds
  remote_sections := sectionsOf remoteCmds

/-- `ConfigDiff.is_empty`: no additions, removals, modifications or
remote-only entries. -/
def ConfigDiff.is_empty (d : ConfigDiff) : Bool :=
  decide (d.to_add = [] ∧ d.to_remove = [] ∧ d.to_modify = [] ∧ d.remote_only = [])

/-- `ConfigDiff.is_section_remote_only`: the `(package, section)` pair is on
the remote but not in the local config. -/
def ConfigDiff.is_section_remote_only (d : ConfigDiff) (pkg sec : String) : Bool :=
  decide ((pkg, sec) ∉ d.local_sections ∧ (pkg, sec) ∈ d.remote_sections)

/-- The package filter of `ConfigDiff.get_removal_commands`: `None` admits
every package. -/
def packageAllowed (packages : Option (List String)) (pkg : String) : Bool :=
  match packages with
  | Option.none => true
  | some l => decide (pkg ∈ l)

/-- First pass of `ConfigDiff.get_removal_commands`: the two-segment paths in
`to_remove` whose section is entirely remote-only (subject to the package
filter); their per-option commands are skipped by the second pass. -/
def deletedSections (d : ConfigDiff) (packages : Option (List String)) : List (List String) :=
  d.to_remove.filterMap (fun c =>
    match c.path with
    | [pkg, sec] =>
      if packageAllowed packages pkg then
        (if d.is_section_remote_only pkg sec then some c.path else Option.none)
      else Option.none
    | _ => Option.none)

/-- Second pass of `ConfigDiff.get_removal_commands`, for one `to_remove`
command: a two-segment path deletes the section, a deeper path deletes the
option (or `del_list`s the element) unless its whole section is in the
deleted set; paths of fewer than two segments are skipped, as is anything
outside the package filter. -/
def removalStep (deleted : List (List String)) (packages : Option (List String))
    (c : UCICommand) : Option UCICommand :=
  match c.path with
  | [pkg, _] =>
    if packageAllowed packages pkg then some ⟨.delete, c.path, Option.none⟩
    else Option.none
  | pkg :: sec :: _ :: _ =>
    if packageAllowed packages pkg then
      if [pkg, sec] ∈ deleted then Option.none
      else if c.action = .add_list then some ⟨.del_list, c.path, c.value⟩
      else some ⟨.delete, c.path, Option.none⟩
    else Option.none
  | _ => Option.none

/-- `ConfigDiff.get_removal_commands` from `config.py`: one `delete` per
two-segment path, a `delete` or `del_list` per deeper path unless its whole
section is being deleted. -/
def ConfigDiff.get_removal_commands (d : ConfigDiff)
    (packages : Option (List String)) : List UCICommand :=
  d.to_remove.filterMap (removalStep (deletedSections d packages) packages)

/-- `SSHConnection.reload_config` from `ssh.py`, as the list of shell
commands it issues.  With `changed_packages = None` the legacy behaviour
restarts everything; with an explicit (non-empty) set only the services of
changed packages are touched; an empty set restarts nothing. -/
def reload_config_commands (reload_dhcp : Bool)
    (changed_packages : Option (List String)) : List String :=
  match changed_packages with
  | Option.none =>
    ["/etc/init.d/network restart", "wifi reload"]
      ++ (if reload_dhcp then ["/etc/init.d/dnsmasq restart"] else [])
  | some ch =>
    if ch = [] then []
    else
      (if "network" ∈ ch ∨ "sqm" ∈ ch then ["/etc/init.d/network restart"] else [])
        ++ (if "wireless" ∈ ch then ["wifi reload"] else [])
        ++ (if "dhcp" ∈ ch ∧ reload_dhcp then ["/etc/init.d/dnsmasq restart"] else [])
        ++ (if "firewall" ∈ ch then ["/etc/init.d/firewall reload"] else [])

/-- The `remove_unmanaged` argument of `UCIConfig.apply_diff`
(`Union[bool, List[str]]` in the source). -/
inductive RemoveUnmanaged
| no
| all
| only (pkgs : List String)
deriving DecidableEq

/-- Python truthiness of the `remove_unmanaged` argument: `False` and the
empty list are falsy. -/
def RemoveUnmanaged.truthy : RemoveUnmanaged → Bool
| .no => false
| .all => true
| .only pkgs => decide (pkgs ≠ [])

/-- The mutation list built by `UCIConfig.apply_diff` (`commands_to_run`):
removal commands (only when removal was requested and `to_remove` is
non-empty), then the additions, then the new command of each modification
pair. -/
def applyDiffCommands (d : ConfigDiff) (remove_unmanaged : RemoveUnmanaged) : List UCICommand :=
  (if remove_unmanaged.truthy ∧ d.to_remove ≠ [] then d.get_removal_commands Option.none else [])
    ++ d.to_add
    ++ d.to_modify.map (fun pr => pr.2)

/-- The full transport-facing stream of `UCIConfig.apply_diff` (live, not
dry-run): nothing at all when the diff is empty (the early return), else the
mutation strings, then `uci commit` when auto-commit is requested
(`SSHConnection.commit_changes` with no package list), then the reload
commands when auto-reload is requested (`SSHConnection.reload_config` with
its defaults: `reload_dhcp=True`, `changed_packages=None`). -/
def applyDiffStream (d : ConfigDiff) (remove_unmanaged : RemoveUnmanaged)
    (auto_commit auto_reload : Bool) : List String :=
  if d.is_empty then []
  else
    (applyDiffCommands d remove_unmanaged).map UCICommand.to_string
      ++ (if auto_commit then ["uci commit"] else [])
      ++ (if auto_reload then reload_config_commands true Option.none else [])

/-! String helpers mirroring the Python `str` methods used by
`_parse_uci_show_format`. -/

/-- Python `str.rstrip()`: drop trailing whitespace. -/
def pyRStrip (s : String) : String :=
  String.mk ((s.toList.reverse.dropWhile Char.isWhitespace).reverse)

/-- Python `str.strip()`: drop leading and trailing whitespace. -/
def pyStrip (s : String) : String :=
  String.mk (((s.toList.dropWhile Char.isWhitespace).reverse.dropWhile Char.isWhitespace).reverse)

/-- Helper of `splitCh`: split a character list at every occurrence of `c`,
keeping empty pieces, as Python `str.split(c)` does. -/
def splitChAux (c : Char) : List Char → List Char → List String
| [], acc => [String.mk acc.reverse]
| x :: xs, acc =>
  if x = c then String.mk acc.reverse :: splitChAux c xs []
  else splitChAux c xs (x :: acc)

/-- Python `str.split(c)` for a one-character separator: always returns at
least one (possibly empty) piece. -/
def splitCh (c : Char) (s : String) : List String :=
  splitChAux c s.toList []

/-- Python `str.startswith(pre)`. -/
def startsWithStr (s pre : String) : Bool :=
  pre.toList.isPrefixOf s.toList

/-- Helper of `pyWords`: accumulate the current word (reversed) while
scanning; whitespace flushes a non-empty word, so empty pieces are
discarded, as Python `str.split()` with no argument does. -/
def pyWordsAux : List Char → List Char → List String
| acc, [] => if acc = [] then [] else [String.mk acc.reverse]
| acc, c :: cs =>
  if c.isWhitespace then
    if acc = [] then pyWordsAux [] cs
    else String.mk acc.reverse :: pyWordsAux [] cs
  else pyWordsAux (c :: acc) cs

/-- Python `str.split()` with no argument. -/
def pyWords (s : String) : List String :=
  pyWordsAux [] s.toList

/-- Python `str.strip("'")`: drop leading and trailing single-quote
characters. -/
def stripQuotes (s : String) : String :=
  String.mk (((s.toList.dropWhile (fun ch => ch = '\x27')).reverse.dropWhile
    (fun ch => ch = '\x27')).reverse)

/-- Processing loop of `UCIConfig._parse_uci_show_format` over the remaining
lines, carrying the current section name.  A `config` header with a quoted
name emits a section command and becomes current; a header without any quote
emits nothing and leaves the current section unchanged.  `option` and `list`
lines attach to the current section and are dropped when there is none. -/
def parseShowAux (pkg : String) : Option String → List String → List UCICommand
| _, [] => []
| cur, l :: rest =>
  let line := pyRStrip l
  if line = "" ∨ startsWithStr line "package " then parseShowAux pkg cur rest
  else if startsWithStr line "config " then
    let parts := splitCh '\x27' line
    if 2 ≤ parts.length then
      let section_name := parts.getD 1 ""
      let section_type := stripQuotes ((pyWords line).getD 1 "")
      ⟨.set, [pkg, section_name], some section_type⟩
        :: parseShowAux pkg (some section_name) rest
    else parseShowAux pkg cur rest
  else if startsWithStr line "\toption " then
    match cur with
    | some csec =>
      let parts := splitCh '\x27' (pyStrip line)
      if 2 ≤ parts.length then
        let option_name := stripQuotes ((pyWords line).getD 1 "")
        ⟨.set, [pkg, csec, option_name], some (parts.getD 1 "")⟩
          :: parseShowAux pkg cur rest
      else parseShowAux pkg cur rest
    | Option.none => parseShowAux pkg cur rest
  else if startsWithStr line "\tlist " then
    match cur with
    | some csec =>
      let parts := splitCh '\x27' (pyStrip line)
      if 2 ≤ parts.length then
        let list_name := stripQuotes ((pyWords line).getD 1 "")
        ⟨.add_list, [pkg, csec, list_name], some (parts.getD 1 "")⟩
          :: parseShowAux pkg cur rest
      else parseShowAux pkg cur rest
    | Option.none => parseShowAux pkg cur rest
  else parseShowAux pkg cur rest

/-- `UCIConfig._parse_uci_show_format` from `config.py`: strip the whole
text, split into lines, and process them with no current section. -/
def parseUciShowFormat (pkg : String) (config_str : String) : List UCICommand :=
  parseShowAux pkg Option.none (splitCh '\n' (pyStrip config_str))

/-! Glob matching mirroring Python `fnmatch.fnmatch` (identity case
normalisation on POSIX), used by `RemotePolicy._match_path_pattern` for
pattern segments other than `*` and `**`. -/

/-- Scan of a glob character class after the opening bracket (and after any
leading `!` or literal `]`): collects ranges (single characters are
one-character ranges) until the closing `]`, also returning the number of
characters consumed; `none` when the class is unclosed. -/
def classScan : List Char → List (Char × Char) → Option (List (Char × Char) × Nat)
| [], _ => Option.none
| ']' :: _, acc => some (acc.reverse, 1)
| a :: '-' :: b :: rest, acc =>
  if b = ']' then some ((('-', '-') :: (a, a) :: acc).reverse, 3)
  else (classScan rest ((a, b) :: acc)).map (fun pr => (pr.1, pr.2 + 3))
| a :: rest, acc => (classScan rest ((a, a) :: acc)).map (fun pr => (pr.1, pr.2 + 1))

/-- Parse a glob character class from the characters following `[`: an
optional leading `!` negates, a leading `]` is literal; returns the negation
flag, the ranges, and the number of characters consumed. -/
def parseGlobClass (l : List Char) : Option (Bool × List (Char × Char) × Nat) :=
  match l with
  | '!' :: ']' :: t => (classScan t [(']', ']')]).map (fun pr => (true, pr.1, pr.2 + 2))
  | '!' :: t => (classScan t []).map (fun pr => (true, pr.1, pr.2 + 1))
  | ']' :: t => (classScan t [(']', ']')]).map (fun pr => (false, pr.1, pr.2 + 1))
  | t => (classScan t []).map (fun pr => (false, pr.1, pr.2))

/-- Membership of a character in a parsed glob class. -/
def inClass (neg : Bool) (items : List (Char × Char)) (c : Char) : Bool :=
  let hit := items.any (fun pr => decide (pr.1 ≤ c ∧ c ≤ pr.2))
  if neg then !hit else hit

/-- One token of a compiled glob pattern (Python `fnmatch.translate`
compiles the pattern before matching). -/
inductive GlobTok
| star
| qmark
| lit (c : Char)
| cls (neg : Bool) (items : List (Char × Char))
deriving DecidableEq

/-- Compile a glob pattern into tokens; an unclosed `[` is a literal.  A
class consumes `n` scanned characters, so the recursion carries a fuel
bounded below by the remaining length (the wrapper passes the pattern
length, which always suffices). -/
def globTokensFuel : Nat → List Char → List GlobTok
| 0, _ => []
| _, [] => []
| fuel + 1, '*' :: ps => .star :: globTokensFuel fuel ps
| fuel + 1, '?' :: ps => .qmark :: globTokensFuel fuel ps
| fuel + 1, '[' :: ps =>
  match parseGlobClass ps with
  | some (neg, items, n) => .cls neg items :: globTokensFuel fuel (ps.drop n)
  | Option.none => .lit '[' :: globTokensFuel fuel ps
| fuel + 1, c :: ps => .lit c :: globTokensFuel fuel ps

/-- Compile a glob pattern into tokens. -/
def globTokens (l : List Char) : List GlobTok :=
  globTokensFuel l.length l

/-- Kleene iteration for a `*` token: try the continuation on every suffix
of the name. -/
def globMatchStar (f : List Char → Bool) : List Char → Bool
| [] => f []
| c :: cs => f (c :: cs) || globMatchStar f cs

/-- Full match of a name against a compiled glob pattern. -/
def globMatchTok : List GlobTok → List Char → Bool
| [], [] => true
| [], _ :: _ => false
| .star :: ts, s => globMatchStar (globMatchTok ts) s
| .qmark :: ts, _ :: cs => globMatchTok ts cs
| .qmark :: _, [] => false
| .lit a :: ts, c :: cs => decide (a = c) && globMatchTok ts cs
| .lit _ :: _, [] => false
| .cls neg items :: ts, c :: cs => inClass neg items c && globMatchTok ts cs
| .cls _ _ :: _, [] => false

/-- Python `fnmatch.fnmatch(name, pattern)` (POSIX case normalisation is the
identity). -/
def fnmatchB (name pat : String) : Bool :=
  globMatchTok (globTokens pat.toList) name.toList

/-- Round trip of joining segments with "." and splitting again, as the
recursive call of `RemotePolicy._match_path_pattern` does: an empty segment
list becomes the single empty segment, any other list is unchanged. -/
def reSplitSegs (l : List String) : List String :=
  if l = [] then [""] else l

/-- The while loop of `RemotePolicy._match_path_pattern`, with the pattern
first: runs while both lists are non-empty; a `**` segment that ends the
pattern succeeds, an inner `**` recurses into the full matcher (whose
leading whole-pattern `**` test is inlined as the first disjunct) on every
suffix of the remaining path, re-split after joining so that the empty
suffix becomes one empty segment; `*` consumes one segment; any other
segment glob-matches one segment.  On loop exit both lists must be
exhausted. -/
def matchSegsLoop : List String → List String → Bool
| pseg :: prest, x :: xs =>
  if pseg = "**" then
    if prest = [] then true
    else
      ((List.range ((x :: xs).length + 1)).map (fun i => (x :: xs).drop i)).any
        (fun suf => decide (prest = ["**"]) || matchSegsLoop prest (reSplitSegs suf))
  else if pseg = "*" then matchSegsLoop prest xs
  else if fnmatchB x pseg then matchSegsLoop prest xs
  else false
| [], [] => true
| _, _ => false

/-- `RemotePolicy._match_path_pattern` from `base.py`: the whole pattern
`**` matches anything; otherwise run the position-by-position walk. -/
def matchPathPattern (path pattern : List String) : Bool :=
  decide (pattern = ["**"]) || matchSegsLoop pattern path

/-- String-level test that a dotted pattern ends in `.*`, in segment form:
the last segment is exactly `*` and it is not the whole pattern. -/
def patternEndsDotStar (pattern : List String) : Bool :=
  decide (2 ≤ pattern.length ∧ pattern.getLastD "" = "*")

/-- `RemotePolicy.is_path_whitelisted` from `base.py`: an empty whitelist
matches nothing; otherwise some pattern matches the path, or some pattern
ending in `.*` equals the path once its trailing `.*` is removed. -/
def is_path_whitelisted (whitelist : List (List String)) (path : List String) : Bool :=
  if whitelist = [] then false
  else whitelist.any (fun pattern =>
    matchPathPattern path pattern
      || (patternEndsDotStar pattern && decide (path = pattern.dropLast)))

/-! Model of the fleet stage phase (`FleetExecutor.stage` and
`FleetExecutor._rollback_all` in `fleet_executor.py`).  The thread pool is
serialised: devices are given in worker-completion order, and the
result-collection loop processes them one at a time.  Events record the
transport traffic: `opened` is `conn.connect()`, `staged` is a completed
`apply_diff` with `auto_commit=False` (after which the connection is
registered in `_connections`), `revert` and `disconnect` are the `uci
revert` and `conn.disconnect()` of `_rollback_all`, and `commit` would be a
`uci commit` (never issued during staging).  A failing worker raises out of
its `try` block before registering its connection, so `_rollback_all` never
sees that connection. -/

/-- Outcome of one device's staging worker. -/
inductive StageOutcome
| ok
| fail (msg : String)
deriving DecidableEq

/-- One transport-level event observed by a device during the stage phase. -/
inductive FleetEv
| opened (device : String)
| staged (device : String)
| revert (device : String)
| disconnect (device : String)
| commit (device : String)
deriving DecidableEq

/-- Aggregate result of the stage phase (the fields of `FleetResult` used
here), together with the observed transport events. -/
structure StageResultM where
  results : List (String × Bool × Option String)
  aborted : Bool
  abort_reason : Option String
  events : List FleetEv
deriving DecidableEq

/-- `FleetExecutor._rollback_all`: issue `uci revert` and close the
transport on every registered connection, in registration order. -/
def rollbackEvents (conns : List String) : List FleetEv :=
  (conns.map (fun m => [FleetEv.revert m, FleetEv.disconnect m])).flatten

/-- The result-collection loop of `FleetExecutor.stage`: a successful device
registers its open connection and its diff; the first failure records the
abort reason, stops collecting (remaining futures are cancelled), and
triggers `_rollback_all` on the connections registered so far. -/
def stageLoop : List (String × StageOutcome) → List String → List FleetEv →
    List (String × Bool × Option String) → StageResultM
| [], _, evs, res => ⟨res, false, Option.none, evs⟩
| (n, .ok) :: rest, conns, evs, res =>
  stageLoop rest (conns ++ [n]) (evs ++ [.opened n, .staged n]) (res ++ [(n, true, Option.none)])
| (n, .fail e) :: _, conns, evs, res =>
  ⟨res ++ [(n, false, some e)], true,
   some ("Device \x27" ++ n ++ "\x27 failed: " ++ e),
   (evs ++ [.opened n]) ++ rollbackEvents conns⟩

/-- `FleetExecutor.stage` over the device completion order. -/
def stageRun (devs : List (String × StageOutcome)) : StageResultM :=
  stageLoop devs [] [] []

/-! Theorems. -/

/-- C6: list options diff per element — with a local port list
`[lan1, bat0.10]` and a remote port list `[lan1, lan2, lan3]` on
`network.br_lan`, no whitelist and no removal directive, `common` holds
exactly one `add_list` for `lan1`, `to_add` exactly the `add_list` for
`bat0.10`, and `remote_only` exactly the `add_list` entries for `lan2` and
`lan3`; the same list path thus contributes one entry per distinct element
to three output sequences simultaneously. -/
theorem c6_port_list_diff :
    (diff
        [⟨.set, ["network", "br_lan"], some "device"⟩,
         ⟨.add_list, ["network", "br_lan", "ports"], some "lan1"⟩,
         ⟨.add_list, ["network", "br_lan", "ports"], some "bat0.10"⟩]
        [⟨.set, ["network", "br_lan"], some "device"⟩,
         ⟨.add_list, ["network", "br_lan", "ports"], some "lan1"⟩,
         ⟨.add_list, ["network", "br_lan", "ports"], some "lan2"⟩,
         ⟨.add_list, ["network", "br_lan", "ports"], some "lan3"⟩]
        true Option.none) =
      { to_add := [⟨.add_list, ["network", "br_lan", "ports"], some "bat0.10"⟩]
        to_remove := []
        to_modify := []
        remote_only := [⟨.add_list, ["network", "br_lan", "ports"], some "lan2"⟩,
                        ⟨.add_list, ["network", "br_lan", "ports"], some "lan3"⟩]
        common := [⟨.set, ["network", "br_lan"], some "device"⟩,
                   ⟨.add_list, ["network", "br_lan", "ports"], some "lan1"⟩]
        local_sections := [("network", "br_lan"), ("network", "br_lan"),
                           ("network", "br_lan")]
        remote_sections := [("network", "br_lan"), ("network", "br_lan"),
                            ("network", "br_lan"), ("network", "br_lan")] } := by
  decide

/-- C1: the diff engine of `config.py` takes no whitelist input at all and
its `ConfigDiff` has no whitelisted output: on the remote-only
`network.guest` interface of the repository's own whitelist test, the path
`network.guest.proto` — whose relative form `interfaces.guest.proto` the
attached whitelist pattern matches — is placed in `to_remove` under a
removal directive for `network`, and in `remote_only` otherwise, never in a
whitelisted sequence. -/
theorem c1_whitelist_never_consulted_by_diff :
    (diff []
        [⟨.set, ["network", "guest"], some "interface"⟩,
         ⟨.set, ["network", "guest", "proto"], some "static"⟩,
         ⟨.set, ["network", "guest", "ipaddr"], some "192.168.100.1"⟩,
         ⟨.set, ["network", "guest", "gateway"], some "192.168.100.254"⟩]
        true (some ["network"])).to_remove =
      [⟨.set, ["network", "guest"], some "interface"⟩,
       ⟨.set, ["network", "guest", "proto"], some "static"⟩,
       ⟨.set, ["network", "guest", "ipaddr"], some "192.168.100.1"⟩,
       ⟨.set, ["network", "guest", "gateway"], some "192.168.100.254"⟩]
    ∧ (diff []
        [⟨.set, ["network", "guest"], some "interface"⟩,
         ⟨.set, ["network", "guest", "proto"], some "static"⟩,
         ⟨.set, ["network", "guest", "ipaddr"], some "192.168.100.1"⟩,
         ⟨.set, ["network", "guest", "gateway"], some "192.168.100.254"⟩]
        true Option.none).remote_only =
      [⟨.set, ["network", "guest"], some "interface"⟩,
       ⟨.set, ["network", "guest", "proto"], some "static"⟩,
       ⟨.set, ["network", "guest", "ipaddr"], some "192.168.100.1"⟩,
       ⟨.set, ["network", "guest", "gateway"], some "192.168.100.254"⟩]
    ∧ is_path_whitelisted
        [["interfaces", "guest", "proto"], ["interfaces", "guest", "ipaddr"]]
        ["interfaces", "guest", "proto"] = true := by
  decide

/-- C7: an anonymous `config <type>` header (no quote character on the line)
emits no section command at all — no `@<type>[<i>]` name is generated — and
option lines following it attach to the most recent named section, or are
dropped when there is none. -/
theorem c7_anonymous_sections_dropped :
    parseUciShowFormat "firewall" "config zone\n\toption name \x27lan\x27" = []
    ∧ parseUciShowFormat "network"
        "config interface \x27lan\x27\n\toption proto \x27static\x27\nconfig globals\n\toption ula \x27fd00::/48\x27"
      = [⟨.set, ["network", "lan"], some "interface"⟩,
         ⟨.set, ["network", "lan", "proto"], some "static"⟩,
         ⟨.set, ["network", "lan", "ula"], some "fd00::/48"⟩] := by
  decide

/-- C2 counterexample: in a three-device stage phase whose second device
fails, the failing device opens its transport and the phase aborts with a
message naming it, but that device receives neither a `uci revert` nor a
transport close — only the successfully staged first device is rolled back —
so the claim that every device with staged changes, including the failing
one, is reverted and closed is false. -/
theorem c2_counterexample_failing_device_not_reverted :
    (stageRun [("router1", .ok), ("router2", .fail "connection lost"),
               ("router3", .ok)]).aborted = true
    ∧ (stageRun [("router1", .ok), ("router2", .fail "connection lost"),
                 ("router3", .ok)]).abort_reason
        = some "Device \x27router2\x27 failed: connection lost"
    ∧ FleetEv.opened "router2" ∈
        (stageRun [("router1", .ok), ("router2", .fail "connection lost"),
                   ("router3", .ok)]).events
    ∧ FleetEv.revert "router2" ∉
        (stageRun [("router1", .ok), ("router2", .fail "connection lost"),
                   ("router3", .ok)]).events
    ∧ FleetEv.disconnect "router2" ∉
        (stageRun [("router1", .ok), ("router2", .fail "connection lost"),
                   ("router3", .ok)]).events := by
  decide

/-- C4 counterexample: a live `apply_diff` whose only mutation is a
`wireless` modification still issues the network restart and the dnsmasq
restart (the reload set is not selected from the mutated packages), so the
claim that network is restarted only when `network` or `sqm` changed is
false. -/
theorem c4_counterexample_reloads_not_selected :
    applyDiffStream
        (diff [⟨.set, ["wireless", "w0", "ssid"], some "newnet"⟩]
          [⟨.set, ["wireless", "w0"], some "wifi-iface"⟩,
           ⟨.set, ["wireless", "w0", "ssid"], some "oldnet"⟩]
          true Option.none)
        .no false true
      = ["uci set wireless.w0.ssid=\x27newnet\x27",
         "/etc/init.d/network restart", "wifi reload",
         "/etc/init.d/dnsmasq restart"] := by
  decide

/-- C9 counterexample: for the sensitive option `key` storing the value
`abc*`, the rendered display value is `abc*` itself — identical to the
stored value, hence sharing a prefix of length 4 > 3 with it — so the claim
that the display value never shares a prefix of length greater than 3 with
the stored value is false. -/
theorem c9_counterexample_shared_long_lead :
    get_display_value ["wireless", "w0", "key"] (some "abc*") = "abc*"
    ∧ (get_display_value ["wireless", "w0", "key"] (some "abc*")).toList.take 4
        = ("abc*" : String).toList.take 4
    ∧ 3 < ("abc*" : String).length := by
  decide

/-- C10 counterexample: the pattern `a.**` does not match the path `a`, so a
trailing `**` fails to match zero segments, contradicting the claim that
`**` matches zero or more consecutive segments at any position. -/
theorem c10_counterexample_trailing_double_star :
    matchPathPattern ["a"] ["a", "**"] = false
    ∧ is_path_whitelisted [["a", "**"]] ["a"] = false := by
  decide

/-- Facts extracted from a filter returning a singleton: the element is in
the list, satisfies the predicate, and is the only member satisfying it. -/
theorem filter_singleton_facts {α : Type} {p : α → Bool} {l : List α} {x : α}
    (h : l.filter p = [x]) :
    x ∈ l ∧ p x = true ∧ ∀ y ∈ l, p y = true → y = x := by
  have hx : x ∈ l.filter p := by rw [h]; exact List.mem_singleton.mpr rfl
  have hx' := List.mem_filter.mp hx
  refine ⟨hx'.1, hx'.2, fun y hy hpy => ?_⟩
  have : y ∈ l.filter p := List.mem_filter.mpr ⟨hy, hpy⟩
  rw [h] at this
  exact List.mem_singleton.mp this

/-- C7 (amended): an anonymous `config <type>` header — a line that after
right-stripping is non-empty, does not start with `package `, starts with
`config `, and contains no quote character — emits no command and leaves
the current section unchanged, so the following option and list lines
attach to the previous named section; no `@<type>[<i>]` name is ever
generated. -/
theorem c7_amended_anonymous_header_noop
    (pkg : String) (cur : Option String) (h : String) (rest : List String)
    (h1 : pyRStrip h ≠ "")
    (h2 : startsWithStr (pyRStrip h) "package " = false)
    (h3 : startsWithStr (pyRStrip h) "config " = true)
    (h4 : (splitCh '\x27' (pyRStrip h)).length < 2) :
    parseShowAux pkg cur (h :: rest) = parseShowAux pkg cur rest := by
  have hor : ¬(pyRStrip h = "" ∨ startsWithStr (pyRStrip h) "package " = true) := by
    rintro (hc | hc)
    · exact h1 hc
    · rw [h2] at hc; exact Bool.false_ne_true hc
  have h4' : ¬(2 ≤ (splitCh '\x27' (pyRStrip h)).length) := by omega
  simp only [parseShowAux]
  rw [if_neg hor, if_pos h3, if_neg h4']

/-- C7 amended claim, at the anonymous header `config zone` arriving while
`lan` is the current section: the header is a no-op. -/
theorem c7_amended_witness :
    parseShowAux "firewall" (some "lan")
        ("config zone" :: ["\toption name \x27guest\x27"])
      = parseShowAux "firewall" (some "lan") ["\toption name \x27guest\x27"] :=
  c7_amended_anonymous_header_noop "firewall" (some "lan") "config zone"
    ["\toption name \x27guest\x27"] (by decide) (by decide) (by decide) (by decide)

/-- C10 (amended): the bare pattern `**` matches every path; `*` matches
exactly one segment; `**` matches zero or more segments when more pattern
follows, but a trailing `**` inside a longer pattern requires at least one
remaining path segment (it matches one or more, never zero); a pattern
ending in `.*` additionally matches the pattern prefix with the trailing
`.*` removed. -/
theorem c10_amended_pattern_semantics :
    (∀ path : List String, matchPathPattern path ["**"] = true)
    ∧ (∀ ps : List String, ps ≠ [] → is_path_whitelisted [ps ++ ["*"]] ps = true)
    ∧ (∀ (x : String) (xs : List String), matchSegsLoop ["**"] (x :: xs) = true)
    ∧ matchSegsLoop ["**"] [] = false
    ∧ (∀ s : String, matchPathPattern [s] ["*"] = true)
    ∧ matchPathPattern [] ["*"] = false
    ∧ (∀ (a b : String) (r : List String), matchPathPattern (a :: b :: r) ["*"] = false)
    ∧ matchPathPattern ["a", "b"] ["a", "**", "b"] = true
    ∧ matchPathPattern ["a", "x", "y", "b"] ["a", "**", "b"] = true
    ∧ is_path_whitelisted [["interfaces", "guest", "*"]] ["interfaces", "guest"] = true
    ∧ is_path_whitelisted [["interfaces", "guest", "*"]]
        ["interfaces", "guest", "proto"] = true := by
  refine ⟨?_, ?_, ?_, by decide, ?_, by decide, ?_, by decide, by decide, by decide, by decide⟩
  · intro path
    simp [matchPathPattern]
  · intro ps hps
    have hlen : 1 ≤ ps.length := List.length_pos.mpr hps
    have hend : patternEndsDotStar (ps ++ ["*"]) = true := by
      simp only [patternEndsDotStar, decide_eq_true_eq]
      constructor
      · simp only [List.length_append, List.length_cons, List.length_nil]
        omega
      · exact List.getLastD_concat _ _ _
    simp [is_path_whitelisted, hend]
  · intro x xs
    simp [matchSegsLoop]
  · intro s
    simp [matchPathPattern, matchSegsLoop]
  · intro a b r
    simp [matchPathPattern, matchSegsLoop]

/-- C10 amended claim, instantiated: `**` alone matches a concrete path and
the trailing `.*` rule whitelists a concrete section prefix. -/
theorem c10_amended_witness :
    matchPathPattern ["z", "w"] ["**"] = true
    ∧ is_path_whitelisted [["interfaces", "wan", "*"]] ["interfaces", "wan"] = true :=
  ⟨c10_amended_pattern_semantics.1 ["z", "w"],
   c10_amended_pattern_semantics.2.1 ["interfaces", "wan"] (by decide)⟩

/-- C9 (amended): for a command whose last path segment, lower-cased, is a
sensitive field name, the rendered display value is the masked value: it has
the same length as the stored value, a value of at most 3 characters renders
as all asterisks, a longer value renders as its first 3 characters followed
by asterisk padding, and — provided the stored value does not itself carry
an asterisk at index 3 — the display value shares no prefix of length
greater than 3 with the stored value.  (Masking is a pure rendering
function; the stored command value is untouched.) -/
theorem c9_amended_sensitive_masking (path : List String) (v : String)
    (hsens : pyLower (path.getLastD "") ∈ SENSITIVE_FIELDS) :
    get_display_value path (some v) = mask_sensitive_value (some v) 3
    ∧ (get_display_value path (some v)).length = v.length
    ∧ (v.length ≤ 3 →
        get_display_value path (some v) = String.mk (List.replicate v.length '*'))
    ∧ (3 < v.length →
        get_display_value path (some v)
          = String.mk (v.toList.take 3 ++ List.replicate (v.length - 3) '*'))
    ∧ (3 < v.length → v.toList.getD 3 '*' ≠ '*' →
        ∀ n, 3 < n →
          (get_display_value path (some v)).toList.take n ≠ v.toList.take n) := by
  have hd : get_display_value path (some v) = mask_sensitive_value (some v) 3 := by
    simp only [get_display_value]
    rw [if_pos hsens]
  have htl : v.toList.length = v.length := rfl
  refine ⟨hd, ?_, ?_, ?_, ?_⟩
  · rw [hd]
    by_cases hle : v.length ≤ 3
    · simp only [mask_sensitive_value, if_pos hle]
      show (List.replicate v.length '*').length = v.length
      simp
    · simp only [mask_sensitive_value, if_neg hle]
      show (v.toList.take 3 ++ List.replicate (v.length - 3) '*').length = v.length
      rw [List.length_append, List.length_take, List.length_replicate, htl]
      omega
  · intro hle
    rw [hd]
    simp only [mask_sensitive_value, if_pos hle]
  · intro hlt
    rw [hd]
    simp only [mask_sensitive_value, if_neg (by omega : ¬(v.length ≤ 3))]
  · intro hlt hch n hn heq
    have hmask : get_display_value path (some v)
        = String.mk (v.toList.take 3 ++ List.replicate (v.length - 3) '*') := by
      rw [hd]
      simp only [mask_sensitive_value, if_neg (by omega : ¬(v.length ≤ 3))]
    rw [hmask] at heq
    have hL : (String.mk (v.toList.take 3 ++ List.replicate (v.length - 3) '*')).toList
        = v.toList.take 3 ++ List.replicate (v.length - 3) '*' := rfl
    rw [hL] at heq
    have hidx := congrArg (fun l => l[3]?) heq
    simp only [List.getElem?_take_of_lt hn] at hidx
    have hlen3 : (v.toList.take 3).length = 3 := by
      rw [List.length_take, htl]
      omega
    have hrepl : (v.toList.take 3 ++ List.replicate (v.length - 3) '*')[3]? = some '*' := by
      rw [List.getElem?_append_right (by omega : (v.toList.take 3).length ≤ 3), hlen3]
      rw [List.getElem?_replicate, if_pos (by omega : 3 - 3 < v.length - 3)]
    have hv3 : v.toList[3]? = some '*' := by rw [← hidx, hrepl]
    have hgd : v.toList.getD 3 '*' = '*' := by
      rw [List.getD_eq_getElem?_getD, hv3]
      rfl
    exact hch hgd

/-- C9 amended claim, instantiated at the sensitive key `MySecret123`: the
display value is the mask `MyS********`, of the stored length 11, and no
prefix longer than 3 is shared. -/
theorem c9_amended_witness :
    get_display_value ["wireless", "w0", "key"] (some "MySecret123")
      = mask_sensitive_value (some "MySecret123") 3
    ∧ (get_display_value ["wireless", "w0", "key"] (some "MySecret123")).length
      = ("MySecret123" : String).length
    ∧ (("MySecret123" : String).length ≤ 3 →
        get_display_value ["wireless", "w0", "key"] (some "MySecret123")
          = String.mk (List.replicate ("MySecret123" : String).length '*'))
    ∧ (3 < ("MySecret123" : String).length →
        get_display_value ["wireless", "w0", "key"] (some "MySecret123")
          = String.mk (("MySecret123" : String).toList.take 3
              ++ List.replicate (("MySecret123" : String).length - 3) '*'))
    ∧ (3 < ("MySecret123" : String).length →
        ("MySecret123" : String).toList.getD 3 '*' ≠ '*' →
        ∀ n, 3 < n →
          (get_display_value ["wireless", "w0", "key"] (some "MySecret123")).toList.take n
            ≠ ("MySecret123" : String).toList.take n) :=
  c9_amended_sensitive_masking ["wireless", "w0", "key"] "MySecret123" (by decide)

/-- Membership in the package-aware reload command list, characterised by
the service string and its trigger condition. -/
theorem mem_reload_iff (s : String) (ch : List String) (hch : ch ≠ []) :
    s ∈ reload_config_commands true (some ch) ↔
      ((s = "/etc/init.d/network restart" ∧ ("network" ∈ ch ∨ "sqm" ∈ ch))
        ∨ (s = "wifi reload" ∧ "wireless" ∈ ch)
        ∨ (s = "/etc/init.d/dnsmasq restart" ∧ "dhcp" ∈ ch)
        ∨ (s = "/etc/init.d/firewall reload" ∧ "firewall" ∈ ch)) := by
  simp only [reload_config_commands, if_neg hch]
  by_cases h1 : "network" ∈ ch ∨ "sqm" ∈ ch <;>
    by_cases h2 : "wireless" ∈ ch <;>
      by_cases h3 : "dhcp" ∈ ch <;>
        by_cases h4 : "firewall" ∈ ch <;>
          simp [h1, h2, h3, h4]

/-- C4 (amended): a live `apply_diff` with auto-reload always appends the
fixed legacy reload tail — network restart, wifi reload, dnsmasq restart —
to the stream it would send without auto-reload, irrespective of which
packages the applied commands mutated (it calls `reload_config` with no
changed-package set); the selective mapping of the claim — network or sqm
to network restart, wireless to wifi reload, dhcp to dnsmasq restart,
firewall to firewall reload — is implemented by
`SSHConnection.reload_config` only when an explicit changed-package set is
passed. -/
theorem c4_amended_reload_behaviour
    (d : ConfigDiff) (ru : RemoveUnmanaged) (ac : Bool)
    (hne : d.is_empty = false) :
    applyDiffStream d ru ac true
      = applyDiffStream d ru ac false
          ++ ["/etc/init.d/network restart", "wifi reload", "/etc/init.d/dnsmasq restart"]
    ∧ ∀ ch : List String,
        ("/etc/init.d/network restart" ∈ reload_config_commands true (some ch)
          ↔ ("network" ∈ ch ∨ "sqm" ∈ ch))
        ∧ ("wifi reload" ∈ reload_config_commands true (some ch) ↔ "wireless" ∈ ch)
        ∧ ("/etc/init.d/dnsmasq restart" ∈ reload_config_commands true (some ch)
          ↔ "dhcp" ∈ ch)
        ∧ ("/etc/init.d/firewall reload" ∈ reload_config_commands true (some ch)
          ↔ "firewall" ∈ ch) := by
  constructor
  · simp [applyDiffStream, hne, reload_config_commands]
  · intro ch
    by_cases hch : ch = []
    · subst hch
      simp [reload_config_commands]
    · refine ⟨?_, ?_, ?_, ?_⟩ <;> rw [mem_reload_iff _ _ hch] <;> simp

/-- C4 amended claim, instantiated at a diff whose only change is a
`wireless` modification: with auto-reload the full legacy tail is appended,
and the selective characterisation holds for every changed-package set. -/
theorem c4_amended_witness :
    applyDiffStream
        (diff [⟨.set, ["wireless", "w0", "ssid"], some "newnet"⟩]
          [⟨.set, ["wireless", "w0"], some "wifi-iface"⟩,
           ⟨.set, ["wireless", "w0", "ssid"], some "oldnet"⟩]
          true Option.none) .no false true
      = applyDiffStream
          (diff [⟨.set, ["wireless", "w0", "ssid"], some "newnet"⟩]
            [⟨.set, ["wireless", "w0"], some "wifi-iface"⟩,
             ⟨.set, ["wireless", "w0", "ssid"], some "oldnet"⟩]
            true Option.none) .no false false
          ++ ["/etc/init.d/network restart", "wifi reload", "/etc/init.d/dnsmasq restart"]
    ∧ ∀ ch : List String,
        ("/etc/init.d/network restart" ∈ reload_config_commands true (some ch)
          ↔ ("network" ∈ ch ∨ "sqm" ∈ ch))
        ∧ ("wifi reload" ∈ reload_config_commands true (some ch) ↔ "wireless" ∈ ch)
        ∧ ("/etc/init.d/dnsmasq restart" ∈ reload_config_commands true (some ch)
          ↔ "dhcp" ∈ ch)
        ∧ ("/etc/init.d/firewall reload" ∈ reload_config_commands true (some ch)
          ↔ "firewall" ∈ ch) :=
  c4_amended_reload_behaviour
    (diff [⟨.set, ["wireless", "w0", "ssid"], some "newnet"⟩]
      [⟨.set, ["wireless", "w0"], some "wifi-iface"⟩,
       ⟨.set, ["wireless", "w0", "ssid"], some "oldnet"⟩]
      true Option.none) .no false (by decide)

/-- Running the stage loop over a prefix of successful devices registers
their connections, opens and stages each of them, and records their
successes, in order. -/
theorem stageLoop_ok_segment (pre rest : List (String × StageOutcome))
    (conns : List String) (evs : List FleetEv)
    (res : List (String × Bool × Option String))
    (hpre : ∀ d ∈ pre, d.2 = StageOutcome.ok) :
    stageLoop (pre ++ rest) conns evs res
      = stageLoop rest (conns ++ pre.map Prod.fst)
          (evs ++ (pre.map (fun d => [FleetEv.opened d.1, FleetEv.staged d.1])).flatten)
          (res ++ pre.map (fun d => (d.1, true, Option.none))) := by
  induction pre generalizing conns evs res with
  | nil => simp
  | cons a t ih =>
    obtain ⟨m, o⟩ := a
    have ho : o = StageOutcome.ok := hpre (m, o) (List.mem_cons_self _ _)
    subst ho
    simp only [List.cons_append, stageLoop, List.append_eq]
    rw [ih _ _ _ (fun d hd => hpre d (List.mem_cons_of_mem _ hd))]
    simp [List.append_assoc]

/-- C2 (amended): in a stage phase whose completion order is a prefix of
successful devices followed by a failing device (device names distinct),
the phase aborts with a message naming the failing device, no device ever
receives a `uci commit`, every device that completed staging receives a
best-effort `uci revert` followed by a transport close, the failing device
itself receives neither a revert nor a close, and devices whose workers
were cancelled are never contacted. -/
theorem c2_amended_stage_failfast
    (pre post : List (String × StageOutcome)) (n e : String)
    (hpre : ∀ d ∈ pre, d.2 = StageOutcome.ok)
    (hnd : ((pre ++ (n, StageOutcome.fail e) :: post).map Prod.fst).Nodup) :
    (stageRun (pre ++ (n, StageOutcome.fail e) :: post)).aborted = true
    ∧ (stageRun (pre ++ (n, StageOutcome.fail e) :: post)).abort_reason
        = some ("Device \x27" ++ n ++ "\x27 failed: " ++ e)
    ∧ (∀ m, FleetEv.commit m ∉ (stageRun (pre ++ (n, StageOutcome.fail e) :: post)).events)
    ∧ (∀ m, FleetEv.staged m ∈ (stageRun (pre ++ (n, StageOutcome.fail e) :: post)).events →
        FleetEv.revert m ∈ (stageRun (pre ++ (n, StageOutcome.fail e) :: post)).events
        ∧ FleetEv.disconnect m ∈ (stageRun (pre ++ (n, StageOutcome.fail e) :: post)).events)
    ∧ FleetEv.revert n ∉ (stageRun (pre ++ (n, StageOutcome.fail e) :: post)).events
    ∧ FleetEv.disconnect n ∉ (stageRun (pre ++ (n, StageOutcome.fail e) :: post)).events
    ∧ (∀ d ∈ post,
        FleetEv.opened d.1 ∉ (stageRun (pre ++ (n, StageOutcome.fail e) :: post)).events) := by
  have hrun : stageRun (pre ++ (n, StageOutcome.fail e) :: post)
      = ⟨pre.map (fun d => (d.1, true, Option.none)) ++ [(n, false, some e)], true,
         some ("Device \x27" ++ n ++ "\x27 failed: " ++ e),
         ((pre.map (fun d => [FleetEv.opened d.1, FleetEv.staged d.1])).flatten
             ++ [FleetEv.opened n])
           ++ rollbackEvents (pre.map Prod.fst)⟩ := by
    unfold stageRun
    rw [stageLoop_ok_segment pre _ [] [] [] hpre]
    simp [stageLoop]
  have hmapfst : (pre ++ (n, StageOutcome.fail e) :: post).map Prod.fst
      = pre.map Prod.fst ++ n :: post.map Prod.fst := by simp
  rw [hmapfst, List.nodup_append] at hnd
  obtain ⟨hnd1, hnd2, hdisj⟩ := hnd
  have hn_pre : n ∉ pre.map Prod.fst := fun h => hdisj h (List.mem_cons_self _ _)
  have hn_post : n ∉ post.map Prod.fst := (List.nodup_cons.mp hnd2).1
  have hpost_pre : ∀ m ∈ post.map Prod.fst, m ∉ pre.map Prod.fst :=
    fun m hm h => hdisj h (List.mem_cons_of_mem _ hm)
  have hEmem : ∀ x, x ∈ (pre.map (fun d => [FleetEv.opened d.1, FleetEv.staged d.1])).flatten →
      ∃ m ∈ pre.map Prod.fst, x = FleetEv.opened m ∨ x = FleetEv.staged m := by
    intro x hx
    obtain ⟨l, hl, hxl⟩ := List.mem_flatten.mp hx
    obtain ⟨d, hd, hld⟩ := List.mem_map.mp hl
    have hm : d.1 ∈ pre.map Prod.fst := List.mem_map.mpr ⟨d, hd, rfl⟩
    rw [← hld] at hxl
    rcases List.mem_cons.mp hxl with h | h
    · exact ⟨d.1, hm, Or.inl h⟩
    · exact ⟨d.1, hm, Or.inr (List.mem_singleton.mp h)⟩
  have hRBmem : ∀ x, x ∈ rollbackEvents (pre.map Prod.fst) →
      ∃ m ∈ pre.map Prod.fst, x = FleetEv.revert m ∨ x = FleetEv.disconnect m := by
    intro x hx
    obtain ⟨l, hl, hxl⟩ := List.mem_flatten.mp hx
    obtain ⟨m, hm, hlm⟩ := List.mem_map.mp hl
    rw [← hlm] at hxl
    rcases List.mem_cons.mp hxl with h | h
    · exact ⟨m, hm, Or.inl h⟩
    · exact ⟨m, hm, Or.inr (List.mem_singleton.mp h)⟩
  have hRBintro : ∀ m ∈ pre.map Prod.fst,
      FleetEv.revert m ∈ rollbackEvents (pre.map Prod.fst)
      ∧ FleetEv.disconnect m ∈ rollbackEvents (pre.map Prod.fst) := by
    intro m hm
    constructor <;>
      exact List.mem_flatten.mpr
        ⟨[FleetEv.revert m, FleetEv.disconnect m], List.mem_map.mpr ⟨m, hm, rfl⟩, by simp⟩
  have hev : ∀ x,
      x ∈ (((pre.map (fun d => [FleetEv.opened d.1, FleetEv.staged d.1])).flatten
            ++ [FleetEv.opened n]) ++ rollbackEvents (pre.map Prod.fst))
        ↔ (x ∈ (pre.map (fun d => [FleetEv.opened d.1, FleetEv.staged d.1])).flatten
            ∨ x = FleetEv.opened n ∨ x ∈ rollbackEvents (pre.map Prod.fst)) := by
    intro x
    simp [List.mem_append, or_assoc]
  rw [hrun]
  refine ⟨rfl, rfl, ?_, ?_, ?_, ?_, ?_⟩
  · intro m hm
    rcases (hev _).mp hm with h | h | h
    · obtain ⟨m2, _, h | h⟩ := hEmem _ h <;> exact FleetEv.noConfusion h
    · exact FleetEv.noConfusion h
    · obtain ⟨m2, _, h | h⟩ := hRBmem _ h <;> exact FleetEv.noConfusion h
  · intro m hm
    have hmem : m ∈ pre.map Prod.fst := by
      rcases (hev _).mp hm with h | h | h
      · obtain ⟨m2, hm2, h | h⟩ := hEmem _ h
        · exact FleetEv.noConfusion h
        · rw [FleetEv.staged.inj h]; exact hm2
      · exact FleetEv.noConfusion h
      · obtain ⟨m2, _, h | h⟩ := hRBmem _ h <;> exact FleetEv.noConfusion h
    obtain ⟨hr, hdc⟩ := hRBintro m hmem
    exact ⟨(hev _).mpr (Or.inr (Or.inr hr)), (hev _).mpr (Or.inr (Or.inr hdc))⟩
  · intro hm
    rcases (hev _).mp hm with h | h | h
    · obtain ⟨m2, _, h | h⟩ := hEmem _ h <;> exact FleetEv.noConfusion h
    · exact FleetEv.noConfusion h
    · obtain ⟨m2, hm2, h | h⟩ := hRBmem _ h
      · rw [FleetEv.revert.inj h] at hn_pre; exact hn_pre hm2
      · exact FleetEv.noConfusion h
  · intro hm
    rcases (hev _).mp hm with h | h | h
    · obtain ⟨m2, _, h | h⟩ := hEmem _ h <;> exact FleetEv.noConfusion h
    · exact FleetEv.noConfusion h
    · obtain ⟨m2, hm2, h | h⟩ := hRBmem _ h
      · exact FleetEv.noConfusion h
      · rw [FleetEv.disconnect.inj h] at hn_pre; exact hn_pre hm2
  · intro d hd hm
    have hdpost : d.1 ∈ post.map Prod.fst := List.mem_map.mpr ⟨d, hd, rfl⟩
    rcases (hev _).mp hm with h | h | h
    · obtain ⟨m2, hm2, h | h⟩ := hEmem _ h
      · rw [FleetEv.opened.inj h] at hdpost
        exact hpost_pre _ hdpost hm2
      · exact FleetEv.noConfusion h
    · rw [FleetEv.opened.inj h] at hdpost
      exact hn_post hdpost
    · obtain ⟨m2, _, h | h⟩ := hRBmem _ h <;> exact FleetEv.noConfusion h

/-- C2 amended claim, instantiated at a three-device phase whose second
device fails: the phase aborts naming router2, no commit is sent, every
staged device is reverted and closed, router2 gets neither, router3 is
never contacted. -/
theorem c2_amended_witness :
    (stageRun [("router1", StageOutcome.ok), ("router2", StageOutcome.fail "boom"),
               ("router3", StageOutcome.ok)]).aborted = true
    ∧ (stageRun [("router1", StageOutcome.ok), ("router2", StageOutcome.fail "boom"),
                 ("router3", StageOutcome.ok)]).abort_reason
        = some ("Device \x27" ++ "router2" ++ "\x27 failed: " ++ "boom")
    ∧ (∀ m, FleetEv.commit m ∉
        (stageRun [("router1", StageOutcome.ok), ("router2", StageOutcome.fail "boom"),
                   ("router3", StageOutcome.ok)]).events)
    ∧ (∀ m, FleetEv.staged m ∈
        (stageRun [("router1", StageOutcome.ok), ("router2", StageOutcome.fail "boom"),
                   ("router3", StageOutcome.ok)]).events →
        FleetEv.revert m ∈
          (stageRun [("router1", StageOutcome.ok), ("router2", StageOutcome.fail "boom"),
                     ("router3", StageOutcome.ok)]).events
        ∧ FleetEv.disconnect m ∈
          (stageRun [("router1", StageOutcome.ok), ("router2", StageOutcome.fail "boom"),
                     ("router3", StageOutcome.ok)]).events)
    ∧ FleetEv.revert "router2" ∉
        (stageRun [("router1", StageOutcome.ok), ("router2", StageOutcome.fail "boom"),
                   ("router3", StageOutcome.ok)]).events
    ∧ FleetEv.disconnect "router2" ∉
        (stageRun [("router1", StageOutcome.ok), ("router2", StageOutcome.fail "boom"),
                   ("router3", StageOutcome.ok)]).events
    ∧ (∀ d ∈ [("router3", StageOutcome.ok)],
        FleetEv.opened d.1 ∉
          (stageRun [("router1", StageOutcome.ok), ("router2", StageOutcome.fail "boom"),
                     ("router3", StageOutcome.ok)]).events) :=
  c2_amended_stage_failfast [("router1", StageOutcome.ok)] [("router3", StageOutcome.ok)]
    "router2" "boom" (by decide) (by decide)

/-- An emitted removal command keeps the path of the `to_remove` command it
came from. -/
theorem removalStep_path {deleted : List (List String)} {packages : Option (List String)}
    {c out : UCICommand} (h : removalStep deleted packages c = some out) :
    out.path = c.path := by
  unfold removalStep at h
  split at h
  · split at h
    · cases h; rfl
    · exact Option.noConfusion h
  · split at h
    · split at h
      · exact Option.noConfusion h
      · split at h
        · cases h; rfl
        · cases h; rfl
    · exact Option.noConfusion h
  · exact Option.noConfusion h

/-- An emitted removal command is a `delete` or a `del_list`. -/
theorem removalStep_action {deleted : List (List String)} {packages : Option (List String)}
    {c out : UCICommand} (h : removalStep deleted packages c = some out) :
    out.action = UCIAction.delete ∨ out.action = UCIAction.del_list := by
  unfold removalStep at h
  split at h
  · split at h
    · cases h; exact Or.inl rfl
    · exact Option.noConfusion h
  · split at h
    · split at h
      · exact Option.noConfusion h
      · split at h
        · cases h; exact Or.inr rfl
        · cases h; exact Or.inl rfl
    · exact Option.noConfusion h
  · exact Option.noConfusion h

/-- An option-level `to_remove` command whose whole section is in the
deleted set is skipped. -/
theorem removalStep_skips_deleted {deleted : List (List String)}
    {packages : Option (List String)} {c : UCICommand} {pkg sec r : String}
    {t : List String} (hp : c.path = pkg :: sec :: r :: t)
    (hdel : [pkg, sec] ∈ deleted) :
    removalStep deleted packages c = Option.none := by
  by_cases hal : packageAllowed packages pkg = true <;>
    simp [removalStep, hp, hal, hdel]

/-- Filtering the removal output of a list whose single occurrence of the
section path is a given command yields exactly one section delete. -/
theorem removal_filter_singleton
    (deleted : List (List String)) (packages : Option (List String))
    (pkg sec : String) (hpkg : packageAllowed packages pkg = true) :
    ∀ L : List UCICommand, L.filter (fun c => decide (c.path = [pkg, sec])) = [sd] →
    (L.filterMap (removalStep deleted packages)).filter
        (fun c => decide (c.path = [pkg, sec]))
      = [⟨UCIAction.delete, [pkg, sec], Option.none⟩] := by
  intro L
  induction L with
  | nil => intro h; simp at h
  | cons a t ih =>
    intro h
    by_cases hap : a.path = [pkg, sec]
    · rw [List.filter_cons_of_pos (by simp [hap])] at h
      injection h with h1 h2
      have hstep : removalStep deleted packages a
          = some ⟨UCIAction.delete, [pkg, sec], Option.none⟩ := by
        simp [removalStep, hap, hpkg]
      rw [List.filterMap_cons_some hstep,
        List.filter_cons_of_pos (by simp)]
      have hrest : (t.filterMap (removalStep deleted packages)).filter
          (fun c => decide (c.path = [pkg, sec])) = [] := by
        rw [List.filter_eq_nil_iff]
        intro c hc
        obtain ⟨b, hb, hfb⟩ := List.mem_filterMap.mp hc
        have hbp := removalStep_path hfb
        have hbnot := List.filter_eq_nil_iff.mp h2 b hb
        simp only [decide_eq_true_eq] at hbnot ⊢
        rw [hbp]
        exact hbnot
      rw [hrest]
    · rw [List.filter_cons_of_neg (by simp [hap])] at h
      cases hstep : removalStep deleted packages a with
      | none =>
        rw [List.filterMap_cons_none hstep]
        exact ih h
      | some b =>
        have hbp := removalStep_path hstep
        rw [List.filterMap_cons_some hstep,
          List.filter_cons_of_neg (by simp [hbp, hap])]
        exact ih h

/-- C3: when a section is entirely remote-only and its section-definition
command occurs (once) in `to_remove`, the removal command list contains
exactly one `delete package.section` for that section and no removal
command at all for that section's options or list elements. -/
theorem c3_remote_only_section_single_delete
    (d : ConfigDiff) (packages : Option (List String)) (pkg sec : String)
    (sd : UCICommand)
    (hsd : sd.path = [pkg, sec])
    (hsec : d.to_remove.filter (fun c => decide (c.path = [pkg, sec])) = [sd])
    (hro : d.is_section_remote_only pkg sec = true)
    (hpkg : packageAllowed packages pkg = true) :
    (d.get_removal_commands packages).filter (fun c => decide (c.path = [pkg, sec]))
      = [⟨UCIAction.delete, [pkg, sec], Option.none⟩]
    ∧ (d.get_removal_commands packages).filter
        (fun c => decide (c.path.take 2 = [pkg, sec]) && decide (3 ≤ c.path.length))
      = [] := by
  obtain ⟨hsd_mem, _, _⟩ := filter_singleton_facts hsec
  have hdel_mem : [pkg, sec] ∈ deletedSections d packages := by
    unfold deletedSections
    apply List.mem_filterMap.mpr
    refine ⟨sd, hsd_mem, ?_⟩
    simp [hsd, hpkg, hro]
  constructor
  · exact removal_filter_singleton (deletedSections d packages) packages pkg sec hpkg
      d.to_remove hsec
  · rw [List.filter_eq_nil_iff]
    intro c hc hpred
    obtain ⟨b, hb, hfb⟩ := List.mem_filterMap.mp hc
    have hbp := removalStep_path hfb
    simp only [Bool.and_eq_true, decide_eq_true_eq] at hpred
    obtain ⟨htake, hlen⟩ := hpred
    have hshape : ∃ r t2, c.path = pkg :: sec :: r :: t2 := by
      cases hcp : c.path with
      | nil => rw [hcp] at htake; simp at htake
      | cons x xs =>
        cases xs with
        | nil => rw [hcp] at htake; simp at htake
        | cons y rest =>
          rw [hcp] at htake hlen
          simp only [List.take_succ_cons, List.take_zero] at htake
          obtain ⟨hx, hy⟩ : x = pkg ∧ y = sec := by
            injection htake with hx h1
            injection h1 with hy _
            exact ⟨hx, hy⟩
          subst hx
          subst hy
          cases rest with
          | nil => simp at hlen
          | cons r t2 => exact ⟨r, t2, rfl⟩
    obtain ⟨r, t2, hc⟩ := hshape
    have hbp2 : b.path = pkg :: sec :: r :: t2 := by rw [← hbp]; exact hc
    rw [removalStep_skips_deleted hbp2 hdel_mem] at hfb
    exact Option.noConfusion hfb

/-- C3, instantiated at the whole-section delete scenario: local empty,
remote `wireless.old_wifi` with three options, removal directive remove-all:
the removal list contains exactly `delete wireless.old_wifi` for that
section and no per-option removal. -/
theorem c3_witness :
    ((diff []
        [⟨.set, ["wireless", "old_wifi"], some "wifi-iface"⟩,
         ⟨.set, ["wireless", "old_wifi", "device"], some "radio0"⟩,
         ⟨.set, ["wireless", "old_wifi", "ssid"], some "OldNet"⟩,
         ⟨.set, ["wireless", "old_wifi", "encryption"], some "psk2"⟩]
        false Option.none).get_removal_commands Option.none).filter
        (fun c => decide (c.path = ["wireless", "old_wifi"]))
      = [⟨UCIAction.delete, ["wireless", "old_wifi"], Option.none⟩]
    ∧ ((diff []
        [⟨.set, ["wireless", "old_wifi"], some "wifi-iface"⟩,
         ⟨.set, ["wireless", "old_wifi", "device"], some "radio0"⟩,
         ⟨.set, ["wireless", "old_wifi", "ssid"], some "OldNet"⟩,
         ⟨.set, ["wireless", "old_wifi", "encryption"], some "psk2"⟩]
        false Option.none).get_removal_commands Option.none).filter
        (fun c => decide (c.path.take 2 = ["wireless", "old_wifi"])
          && decide (3 ≤ c.path.length))
      = [] :=
  c3_remote_only_section_single_delete
    (diff []
      [⟨.set, ["wireless", "old_wifi"], some "wifi-iface"⟩,
       ⟨.set, ["wireless", "old_wifi", "device"], some "radio0"⟩,
       ⟨.set, ["wireless", "old_wifi", "ssid"], some "OldNet"⟩,
       ⟨.set, ["wireless", "old_wifi", "encryption"], some "psk2"⟩]
      false Option.none)
    Option.none "wireless" "old_wifi"
    ⟨.set, ["wireless", "old_wifi"], some "wifi-iface"⟩
    rfl (by decide) (by decide) (by decide)

/-- When a list's only command at a path is a `set`, searching for the first
`set` at that path finds exactly it. -/
theorem find_set_of_filter_singleton {l : List UCICommand} {p : List String}
    {x : UCICommand}
    (h : l.filter (fun c => decide (c.path = p)) = [x])
    (hx : x.action = UCIAction.set) :
    l.find? (fun r => decide (r.path = p) && decide (r.action = UCIAction.set)) = some x := by
  induction l with
  | nil => simp at h
  | cons a t ih =>
    by_cases hap : a.path = p
    · rw [List.filter_cons_of_pos (by simp [hap])] at h
      injection h with h1 h2
      subst h1
      rw [List.find?_cons_of_pos _ (by simp [hap, hx])]
    · rw [List.filter_cons_of_neg (by simp [hap])] at h
      rw [List.find?_cons_of_neg _ (by simp [hap])]
      exact ih h

/-- Membership of a `(path, value)` pair in the pair set of a command list. -/
theorem pairsOf_mem {cmds : List UCICommand} {pr : List String × Option String} :
    pr ∈ pairsOf cmds ↔ ∃ c ∈ cmds, c.path = pr.1 ∧ c.value = pr.2 := by
  simp [pairsOf, List.mem_map, Prod.ext_iff]

/-- Filtering the modification pairs of a scan whose single path occurrence
classifies as a modification yields exactly that pair. -/
theorem modify_filter_of_unique
    (rc : List UCICommand) (p : List String) (lcmd rcmd : UCICommand)
    (hclass : localClass rc lcmd = LocalRes.toModify rcmd) (hlp : lcmd.path = p) :
    ∀ L : List UCICommand, L.filter (fun c => decide (c.path = p)) = [lcmd] →
    (L.filterMap (fun c =>
        match localClass rc c with
        | LocalRes.toModify r => some (r, c)
        | _ => Option.none)).filter (fun pr => decide (pr.2.path = p))
      = [(rcmd, lcmd)] := by
  intro L
  induction L with
  | nil => intro h; simp at h
  | cons a t ih =>
    intro h
    by_cases hap : a.path = p
    · rw [List.filter_cons_of_pos (by simp [hap])] at h
      injection h with h1 h2
      subst h1
      rw [List.filterMap_cons_some (by rw [hclass])]
      rw [List.filter_cons_of_pos (by simp [hlp])]
      have hrest : (t.filterMap (fun c =>
          match localClass rc c with
          | LocalRes.toModify r => some (r, c)
          | _ => Option.none)).filter (fun pr => decide (pr.2.path = p)) = [] := by
        rw [List.filter_eq_nil_iff]
        intro pr hpr
        obtain ⟨b, hb, hfb⟩ := List.mem_filterMap.mp hpr
        have hh : pr.2 = b := by
          cases hcl : localClass rc b with
          | toAdd => rw [hcl] at hfb; simp at hfb
          | toCommon => rw [hcl] at hfb; simp at hfb
          | toModify r =>
            rw [hcl] at hfb
            have : (r, b) = pr := by simpa using hfb
            rw [← this]
        have hbn := List.filter_eq_nil_iff.mp h2 b hb
        simp only [decide_eq_true_eq] at hbn ⊢
        rw [hh]
        exact hbn
      rw [hrest]
    · rw [List.filter_cons_of_neg (by simp [hap])] at h
      cases hcl : localClass rc a with
      | toModify r =>
        rw [List.filterMap_cons_some (by rw [hcl])]
        rw [List.filter_cons_of_neg (by simp [hap])]
        exact ih h
      | toAdd =>
        rw [List.filterMap_cons_none (by rw [hcl])]
        exact ih h
      | toCommon =>
        rw [List.filterMap_cons_none (by rw [hcl])]
        exact ih h

/-- A keep-or-drop scan whose unique command at a path is dropped produces
no output at that path. -/
theorem filterMap_keep_filter_empty (f : UCICommand → Option UCICommand)
    (hf : ∀ a b, f a = some b → b = a)
    (p : List String) (x : UCICommand) (hx : f x = Option.none) :
    ∀ L : List UCICommand, (∀ y ∈ L, y.path = p → y = x) →
    (L.filterMap f).filter (fun c => decide (c.path = p)) = [] := by
  intro L hL
  rw [List.filter_eq_nil_iff]
  intro c hc
  obtain ⟨b, hb, hfb⟩ := List.mem_filterMap.mp hc
  have hcb : c = b := hf b c hfb
  simp only [decide_eq_true_eq]
  intro hcp
  have hbx : b = x := hL b hb (by rw [← hcb]; exact hcp)
  rw [hbx, hx] at hfb
  exact Option.noConfusion hfb

/-- C8: a three-segment scalar path set locally and remotely with different
values contributes exactly one `(remote, local)` pair to `to_modify` and
nothing at that path to `to_add`, `to_remove`, `common`, or `remote_only`,
for every removal directive. -/
theorem c8_scalar_modify_unique
    (lc rc : List UCICommand) (p : List String) (lv rv : String)
    (sro : Bool) (rp : Option (List String))
    (_hp3 : p.length = 3)
    (hl : lc.filter (fun c => decide (c.path = p)) = [⟨UCIAction.set, p, some lv⟩])
    (hr : rc.filter (fun c => decide (c.path = p)) = [⟨UCIAction.set, p, some rv⟩])
    (hne : lv ≠ rv) :
    (diff lc rc sro rp).to_modify.filter (fun pr => decide (pr.2.path = p))
      = [(⟨UCIAction.set, p, some rv⟩, ⟨UCIAction.set, p, some lv⟩)]
    ∧ (diff lc rc sro rp).to_add.filter (fun c => decide (c.path = p)) = []
    ∧ (diff lc rc sro rp).to_remove.filter (fun c => decide (c.path = p)) = []
    ∧ (diff lc rc sro rp).common.filter (fun c => decide (c.path = p)) = []
    ∧ (diff lc rc sro rp).remote_only.filter (fun c => decide (c.path = p)) = [] := by
  obtain ⟨hl_mem, _, hl_uniq⟩ := filter_singleton_facts hl
  obtain ⟨hr_mem, _, hr_uniq⟩ := filter_singleton_facts hr
  have hlu : ∀ y ∈ lc, y.path = p → y = ⟨UCIAction.set, p, some lv⟩ :=
    fun y hy hyp => hl_uniq y hy (by simp [hyp])
  have hru : ∀ y ∈ rc, y.path = p → y = ⟨UCIAction.set, p, some rv⟩ :=
    fun y hy hyp => hr_uniq y hy (by simp [hyp])
  have hpair_lr : (p, some lv) ∉ pairsOf rc := by
    intro hmem
    obtain ⟨c, hc, hcp, hcv⟩ := pairsOf_mem.mp hmem
    rw [hru c hc hcp] at hcv
    have : some rv = some lv := hcv
    injection this with hveq
    exact hne hveq.symm
  have hfind : rc.find? (fun r => decide (r.path = p) && decide (r.action = UCIAction.set))
      = some ⟨UCIAction.set, p, some rv⟩ :=
    find_set_of_filter_singleton hr rfl
  have hclass : localClass rc ⟨UCIAction.set, p, some lv⟩
      = LocalRes.toModify ⟨UCIAction.set, p, some rv⟩ := by
    simp [localClass, hpair_lr, hfind]
  have hrclass : remoteClass lc sro rp ⟨UCIAction.set, p, some rv⟩
      = RemoteRes.skip := by
    by_cases hpair_rl : (p, some rv) ∈ pairsOf lc
    · simp [remoteClass, hpair_rl]
    · have hpaths : p ∈ lc.map (fun l => l.path) :=
        List.mem_map.mpr ⟨⟨UCIAction.set, p, some lv⟩, hl_mem, rfl⟩
      simp [remoteClass, hpair_rl, hpaths]
  refine ⟨?_, ?_, ?_, ?_, ?_⟩
  · exact modify_filter_of_unique rc p _ _ hclass rfl lc hl
  · refine filterMap_keep_filter_empty _ ?_ p ⟨UCIAction.set, p, some lv⟩
      (by rw [hclass]) lc hlu
    intro a b hab
    cases hcl : localClass rc a with
    | toAdd => rw [hcl] at hab; simpa using hab.symm
    | toCommon => rw [hcl] at hab; simp at hab
    | toModify r => rw [hcl] at hab; simp at hab
  · refine filterMap_keep_filter_empty _ ?_ p ⟨UCIAction.set, p, some rv⟩
      (by rw [hrclass]) rc hru
    intro a b hab
    cases hcl : remoteClass lc sro rp a with
    | toRemove => rw [hcl] at hab; simpa using hab.symm
    | toRemoteOnly => rw [hcl] at hab; simp at hab
    | skip => rw [hcl] at hab; simp at hab
  · refine filterMap_keep_filter_empty _ ?_ p ⟨UCIAction.set, p, some lv⟩
      (by rw [hclass]) lc hlu
    intro a b hab
    cases hcl : localClass rc a with
    | toCommon => rw [hcl] at hab; simpa using hab.symm
    | toAdd => rw [hcl] at hab; simp at hab
    | toModify r => rw [hcl] at hab; simp at hab
  · refine filterMap_keep_filter_empty _ ?_ p ⟨UCIAction.set, p, some rv⟩
      (by rw [hrclass]) rc hru
    intro a b hab
    cases hcl : remoteClass lc sro rp a with
    | toRemoteOnly => rw [hcl] at hab; simpa using hab.symm
    | toRemove => rw [hcl] at hab; simp at hab
    | skip => rw [hcl] at hab; simp at hab

/-- C8, instantiated at a one-command local and remote configuration with
differing values at the same three-segment path. -/
theorem c8_witness :
    (diff [⟨UCIAction.set, ["network", "lan", "ipaddr"], some "192.168.1.1"⟩]
        [⟨UCIAction.set, ["network", "lan", "ipaddr"], some "192.168.2.1"⟩]
        true Option.none).to_modify.filter
        (fun pr => decide (pr.2.path = ["network", "lan", "ipaddr"]))
      = [(⟨UCIAction.set, ["network", "lan", "ipaddr"], some "192.168.2.1"⟩,
          ⟨UCIAction.set, ["network", "lan", "ipaddr"], some "192.168.1.1"⟩)]
    ∧ (diff [⟨UCIAction.set, ["network", "lan", "ipaddr"], some "192.168.1.1"⟩]
        [⟨UCIAction.set, ["network", "lan", "ipaddr"], some "192.168.2.1"⟩]
        true Option.none).to_add.filter
        (fun c => decide (c.path = ["network", "lan", "ipaddr"])) = []
    ∧ (diff [⟨UCIAction.set, ["network", "lan", "ipaddr"], some "192.168.1.1"⟩]
        [⟨UCIAction.set, ["network", "lan", "ipaddr"], some "192.168.2.1"⟩]
        true Option.none).to_remove.filter
        (fun c => decide (c.path = ["network", "lan", "ipaddr"])) = []
    ∧ (diff [⟨UCIAction.set, ["network", "lan", "ipaddr"], some "192.168.1.1"⟩]
        [⟨UCIAction.set, ["network", "lan", "ipaddr"], some "192.168.2.1"⟩]
        true Option.none).common.filter
        (fun c => decide (c.path = ["network", "lan", "ipaddr"])) = []
    ∧ (diff [⟨UCIAction.set, ["network", "lan", "ipaddr"], some "192.168.1.1"⟩]
        [⟨UCIAction.set, ["network", "lan", "ipaddr"], some "192.168.2.1"⟩]
        true Option.none).remote_only.filter
        (fun c => decide (c.path = ["network", "lan", "ipaddr"])) = [] :=
  c8_scalar_modify_unique
    [⟨UCIAction.set, ["network", "lan", "ipaddr"], some "192.168.1.1"⟩]
    [⟨UCIAction.set, ["network", "lan", "ipaddr"], some "192.168.2.1"⟩]
    ["network", "lan", "ipaddr"] "192.168.1.1" "192.168.2.1" true Option.none
    (by decide) (by decide) (by decide) (by decide)

/-- Everything placed in `to_add` is one of the scanned local commands. -/
theorem diff_to_add_subset {lc rc : List UCICommand} {sro : Bool}
    {rp : Option (List String)} {c : UCICommand}
    (h : c ∈ (diff lc rc sro rp).to_add) : c ∈ lc := by
  obtain ⟨a, ha, hfa⟩ := List.mem_filterMap.mp h
  cases hcl : localClass rc a with
  | toAdd =>
    rw [hcl] at hfa
    have : a = c := by simpa using hfa
    rw [← this]
    exact ha
  | toCommon => rw [hcl] at hfa; simp at hfa
  | toModify r => rw [hcl] at hfa; simp at hfa

/-- The new half of every modification pair is one of the scanned local
commands. -/
theorem diff_to_modify_snd_mem {lc rc : List UCICommand} {sro : Bool}
    {rp : Option (List String)} {pr : UCICommand × UCICommand}
    (h : pr ∈ (diff lc rc sro rp).to_modify) : pr.2 ∈ lc := by
  obtain ⟨a, ha, hfa⟩ := List.mem_filterMap.mp h
  cases hcl : localClass rc a with
  | toAdd => rw [hcl] at hfa; simp at hfa
  | toCommon => rw [hcl] at hfa; simp at hfa
  | toModify r =>
    rw [hcl] at hfa
    have : (r, a) = pr := by simpa using hfa
    rw [← this]
    exact ha

/-- In a list that decomposes as deletions followed by non-deletions, any
deletion index bounds every earlier index to a deletion too. -/
theorem deletions_first (L R S : List UCICommand) (hL : L = R ++ S)
    (hR : ∀ c ∈ R, c.action = UCIAction.delete ∨ c.action = UCIAction.del_list)
    (hS : ∀ c ∈ S, ¬(c.action = UCIAction.delete ∨ c.action = UCIAction.del_list)) :
    ∀ i j, (hi : i < L.length) → (hj : j < L.length) → i ≤ j →
      ((L.get ⟨j, hj⟩).action = UCIAction.delete
        ∨ (L.get ⟨j, hj⟩).action = UCIAction.del_list) →
      ((L.get ⟨i, hi⟩).action = UCIAction.delete
        ∨ (L.get ⟨i, hi⟩).action = UCIAction.del_list) := by
  subst hL
  intro i j hi hj hij hdel
  have hjR : j < R.length := by
    by_contra hge
    push_neg at hge
    have hmem : (R ++ S).get ⟨j, hj⟩ ∈ S := by
      rw [List.get_eq_getElem, List.getElem_append_right hge]
      exact List.getElem_mem _
    exact hS _ hmem hdel
  have hiR : i < R.length := Nat.lt_of_le_of_lt hij hjR
  have hmem : (R ++ S).get ⟨i, hi⟩ ∈ R := by
    rw [List.get_eq_getElem, List.getElem_append_left hiR]
    exact List.getElem_mem _
  exact hR _ hmem

/-- C5: the live `apply_diff` stream is the mutation strings followed by
`uci commit` when requested and then the service reloads when requested;
the mutation list is the removal commands, then the additions, then the new
value of each modification, every removal command is a `delete` or
`del_list`, and no addition or modification ever precedes a deletion. -/
theorem c5_apply_stream_ordered
    (lc rc : List UCICommand) (sro : Bool) (rp : Option (List String))
    (ru : RemoveUnmanaged) (ac ar : Bool)
    (hact : ∀ c ∈ lc, c.action = UCIAction.set ∨ c.action = UCIAction.add_list)
    (hne : (diff lc rc sro rp).is_empty = false) :
    applyDiffStream (diff lc rc sro rp) ru ac ar
      = (applyDiffCommands (diff lc rc sro rp) ru).map UCICommand.to_string
          ++ (if ac then ["uci commit"] else [])
          ++ (if ar then reload_config_commands true Option.none else [])
    ∧ applyDiffCommands (diff lc rc sro rp) ru
      = (if ru.truthy ∧ (diff lc rc sro rp).to_remove ≠ []
            then (diff lc rc sro rp).get_removal_commands Option.none else [])
          ++ (diff lc rc sro rp).to_add
          ++ (diff lc rc sro rp).to_modify.map (fun pr => pr.2)
    ∧ (∀ c ∈ (diff lc rc sro rp).get_removal_commands Option.none,
          c.action = UCIAction.delete ∨ c.action = UCIAction.del_list)
    ∧ (∀ i j, (hi : i < (applyDiffCommands (diff lc rc sro rp) ru).length) →
          (hj : j < (applyDiffCommands (diff lc rc sro rp) ru).length) → i ≤ j →
          (((applyDiffCommands (diff lc rc sro rp) ru).get ⟨j, hj⟩).action
              = UCIAction.delete
            ∨ ((applyDiffCommands (diff lc rc sro rp) ru).get ⟨j, hj⟩).action
              = UCIAction.del_list) →
          (((applyDiffCommands (diff lc rc sro rp) ru).get ⟨i, hi⟩).action
              = UCIAction.delete
            ∨ ((applyDiffCommands (diff lc rc sro rp) ru).get ⟨i, hi⟩).action
              = UCIAction.del_list)) := by
  have hremact : ∀ c ∈ (diff lc rc sro rp).get_removal_commands Option.none,
      c.action = UCIAction.delete ∨ c.action = UCIAction.del_list := by
    intro c hc
    obtain ⟨b, _, hfb⟩ := List.mem_filterMap.mp hc
    exact removalStep_action hfb
  refine ⟨by simp [applyDiffStream, hne], rfl, hremact, ?_⟩
  apply deletions_first _
    (if ru.truthy ∧ (diff lc rc sro rp).to_remove ≠ []
      then (diff lc rc sro rp).get_removal_commands Option.none else [])
    ((diff lc rc sro rp).to_add ++ (diff lc rc sro rp).to_modify.map (fun pr => pr.2))
  · simp [applyDiffCommands, List.append_assoc]
  · intro c hc
    by_cases hP : ru.truthy ∧ (diff lc rc sro rp).to_remove ≠ []
    · rw [if_pos hP] at hc
      exact hremact c hc
    · rw [if_neg hP] at hc
      simp at hc
  · intro c hc
    have hin : c ∈ lc := by
      rcases List.mem_append.mp hc with h | h
      · exact diff_to_add_subset h
      · obtain ⟨pr, hpr, hpc⟩ := List.mem_map.mp h
        rw [← hpc]
        exact diff_to_modify_snd_mem hpr
    rcases hact c hin with h | h <;> rw [h] <;> rintro (hc2 | hc2) <;>
      exact UCIAction.noConfusion hc2

/-- C5, instantiated at a removal-plus-addition-plus-modification diff with
commit and reload requested. -/
theorem c5_witness :
    applyDiffStream
        (diff
          [⟨UCIAction.set, ["network", "lan"], some "interface"⟩,
           ⟨UCIAction.set, ["network", "lan", "proto"], some "static"⟩,
           ⟨UCIAction.set, ["network", "lan", "ipaddr"], some "10.0.0.1"⟩]
          [⟨UCIAction.set, ["network", "lan"], some "interface"⟩,
           ⟨UCIAction.set, ["network", "lan", "ipaddr"], some "10.0.0.2"⟩,
           ⟨UCIAction.set, ["network", "old"], some "interface"⟩,
           ⟨UCIAction.set, ["network", "old", "proto"], some "dhcp"⟩]
          true (some ["network"])) RemoveUnmanaged.all true true
      = (applyDiffCommands
          (diff
            [⟨UCIAction.set, ["network", "lan"], some "interface"⟩,
             ⟨UCIAction.set, ["network", "lan", "proto"], some "static"⟩,
             ⟨UCIAction.set, ["network", "lan", "ipaddr"], some "10.0.0.1"⟩]
            [⟨UCIAction.set, ["network", "lan"], some "interface"⟩,
             ⟨UCIAction.set, ["network", "lan", "ipaddr"], some "10.0.0.2"⟩,
             ⟨UCIAction.set, ["network", "old"], some "interface"⟩,
             ⟨UCIAction.set, ["network", "old", "proto"], some "dhcp"⟩]
            true (some ["network"])) RemoveUnmanaged.all).map UCICommand.to_string
          ++ ["uci commit"]
          ++ reload_config_commands true Option.none
    ∧ (∀ i j,
        (hi : i < (applyDiffCommands
            (diff
              [⟨UCIAction.set, ["network", "lan"], some "interface"⟩,
               ⟨UCIAction.set, ["network", "lan", "proto"], some "static"⟩,
               ⟨UCIAction.set, ["network", "lan", "ipaddr"], some "10.0.0.1"⟩]
              [⟨UCIAction.set, ["network", "lan"], some "interface"⟩,
               ⟨UCIAction.set, ["network", "lan", "ipaddr"], some "10.0.0.2"⟩,
               ⟨UCIAction.set, ["network", "old"], some "interface"⟩,
               ⟨UCIAction.set, ["network", "old", "proto"], some "dhcp"⟩]
              true (some ["network"])) RemoveUnmanaged.all).length) →
        (hj : j < (applyDiffCommands
            (diff
              [⟨UCIAction.set, ["network", "lan"], some "interface"⟩,
               ⟨UCIAction.set, ["network", "lan", "proto"], some "static"⟩,
               ⟨UCIAction.set, ["network", "lan", "ipaddr"], some "10.0.0.1"⟩]
              [⟨UCIAction.set, ["network", "lan"], some "interface"⟩,
               ⟨UCIAction.set, ["network", "lan", "ipaddr"], some "10.0.0.2"⟩,
               ⟨UCIAction.set, ["network", "old"], some "interface"⟩,
               ⟨UCIAction.set, ["network", "old", "proto"], some "dhcp"⟩]
              true (some ["network"])) RemoveUnmanaged.all).length) → i ≤ j →
        (((applyDiffCommands
            (diff
              [⟨UCIAction.set, ["network", "lan"], some "interface"⟩,
               ⟨UCIAction.set, ["network", "lan", "proto"], some "static"⟩,
               ⟨UCIAction.set, ["network", "lan", "ipaddr"], some "10.0.0.1"⟩]
              [⟨UCIAction.set, ["network", "lan"], some "interface"⟩,
               ⟨UCIAction.set, ["network", "lan", "ipaddr"], some "10.0.0.2"⟩,
               ⟨UCIAction.set, ["network", "old"], some "interface"⟩,
               ⟨UCIAction.set, ["network", "old", "proto"], some "dhcp"⟩]
              true (some ["network"])) RemoveUnmanaged.all).get ⟨j, hj⟩).action
            = UCIAction.delete
          ∨ ((applyDiffCommands
            (diff
              [⟨UCIAction.set, ["network", "lan"], some "interface"⟩,
               ⟨UCIAction.set, ["network", "lan", "proto"], some "static"⟩,
               ⟨UCIAction.set, ["network", "lan", "ipaddr"], some "10.0.0.1"⟩]
              [⟨UCIAction.set, ["network", "lan"], some "interface"⟩,
               ⟨UCIAction.set, ["network", "lan", "ipaddr"], some "10.0.0.2"⟩,
               ⟨UCIAction.set, ["network", "old"], some "interface"⟩,
               ⟨UCIAction.set, ["network", "old", "proto"], some "dhcp"⟩]
              true (some ["network"])) RemoveUnmanaged.all).get ⟨j, hj⟩).action
            = UCIAction.del_list) →
        (((applyDiffCommands
            (diff
              [⟨UCIAction.set, ["network", "lan"], some "interface"⟩,
               ⟨UCIAction.set, ["network", "lan", "proto"], some "static"⟩,
               ⟨UCIAction.set, ["network", "lan", "ipaddr"], some "10.0.0.1"⟩]
              [⟨UCIAction.set, ["network", "lan"], some "interface"⟩,
               ⟨UCIAction.set, ["network", "lan", "ipaddr"], some "10.0.0.2"⟩,
               ⟨UCIAction.set, ["network", "old"], some "interface"⟩,
               ⟨UCIAction.set, ["network", "old", "proto"], some "dhcp"⟩]
              true (some ["network"])) RemoveUnmanaged.all).get ⟨i, hi⟩).action
            = UCIAction.delete
          ∨ ((applyDiffCommands
            (diff
              [⟨UCIAction.set, ["network", "lan"], some "interface"⟩,
               ⟨UCIAction.set, ["network", "lan", "proto"], some "static"⟩,
               ⟨UCIAction.set, ["network", "lan", "ipaddr"], some "10.0.0.1"⟩]
              [⟨UCIAction.set, ["network", "lan"], some "interface"⟩,
               ⟨UCIAction.set, ["network", "lan", "ipaddr"], some "10.0.0.2"⟩,
               ⟨UCIAction.set, ["network", "old"], some "interface"⟩,
               ⟨UCIAction.set, ["network", "old", "proto"], some "dhcp"⟩]
              true (some ["network"])) RemoveUnmanaged.all).get ⟨i, hi⟩).action
            = UCIAction.del_list)) :=
  ⟨(c5_apply_stream_ordered
      [⟨UCIAction.set, ["network", "lan"], some "interface"⟩,
       ⟨UCIAction.set, ["network", "lan", "proto"], some "static"⟩,
       ⟨UCIAction.set, ["network", "lan", "ipaddr"], some "10.0.0.1"⟩]
      [⟨UCIAction.set, ["network", "lan"], some "interface"⟩,
       ⟨UCIAction.set, ["network", "lan", "ipaddr"], some "10.0.0.2"⟩,
       ⟨UCIAction.set, ["network", "old"], some "interface"⟩,
       ⟨UCIAction.set, ["network", "old", "proto"], some "dhcp"⟩]
      true (some ["network"]) RemoveUnmanaged.all true true
      (by decide) (by decide)).1,
   (c5_apply_stream_ordered
      [⟨UCIAction.set, ["network", "lan"], some "interface"⟩,
       ⟨UCIAction.set, ["network", "lan", "proto"], some "static"⟩,
       ⟨UCIAction.set, ["network", "lan", "ipaddr"], some "10.0.0.1"⟩]
      [⟨UCIAction.set, ["network", "lan"], some "interface"⟩,
       ⟨UCIAction.set, ["network", "lan", "ipaddr"], some "10.0.0.2"⟩,
       ⟨UCIAction.set, ["network", "old"], some "interface"⟩,
       ⟨UCIAction.set, ["network", "old", "proto"], some "dhcp"⟩]
      true (some ["network"]) RemoveUnmanaged.all true true
      (by decide) (by decide)).2.2.2⟩

end Wrtkit
